import Mathlib

/-!
# URL_shortener: codec and index store

A shallow embedding of `SURLTools/SURLTools.go` (the index/code transform) and of
`main.go` (record file, handlers, startup recovery), with the properties of the
specification stated over it.

Conventions of the embedding:
* `uint64` values are `Nat`, every arithmetic operation is reduced `% 2^64`;
* `byte` values are `Nat`, every arithmetic operation is reduced `% 256`;
* a Go `string` is the list of its bytes (`GoString`);
* `log.Fatal` and run-time panics are the two constructors of `Abort`, and a
  function that can reach one returns `Except Abort _`.
-/

namespace URLShortener

/-- A Go string, as the sequence of its bytes. -/
abbrev GoString := List Nat

/-- Ways a Go function can stop without returning: `log.Fatal` (process exit) or a
run-time panic (index out of range). -/
inductive Abort where
  | fatal
  | panic
  deriving DecidableEq, Repr

deriving instance DecidableEq for Except

/-- Wrap-around of `uint64` arithmetic. -/
def u64 (n : Nat) : Nat := n % 2 ^ 64

/-- Wrap-around of `byte` arithmetic. -/
def u8 (n : Nat) : Nat := n % 256

/-- Subtraction on `byte`, wrapping below zero. -/
def subU8 (a b : Nat) : Nat := (a % 256 + 256 - b % 256) % 256

/-- Subtraction on `uint64`, wrapping below zero. -/
def subU64 (a b : Nat) : Nat := (a % 2 ^ 64 + 2 ^ 64 - b % 2 ^ 64) % 2 ^ 64

/-! ## SURLTools.go -/

/-- The constant `MAX_URLS` of SURLTools.go line 9, `62^6`. -/
def MAX_URLS : Nat := 62 * 62 * 62 * 62 * 62 * 62

/-- The function `bigMultMod` of SURLTools.go lines 14-28; `Except.error Abort.fatal` is
the `log.Fatal` branch. -/
def bigMultMod (a b : Nat) : Except Abort Nat :=
  if a ≥ 1 <<< 36 ∨ b ≥ 1 <<< 36 then
    Except.error Abort.fatal
  else
    let bUpper := (b &&& 0xfffff0000) / 0x10000
    let bLower := b &&& 0xffff
    let result := u64 (a * bUpper) % MAX_URLS
    let result := u64 (result * 0x10000) % MAX_URLS
    let result := u64 (result + u64 (a * bLower)) % MAX_URLS
    Except.ok result

/-- The values `bigMultMod` forms before reducing them modulo `MAX_URLS` (the two
products, the shifted remainder and the final sum of SURLTools.go lines 23-25),
computed exactly, without wrap-around. -/
def bigMultModUnreduced (a b : Nat) : List Nat :=
  let bUpper := (b &&& 0xfffff0000) / 0x10000
  let bLower := b &&& 0xffff
  let r1 := a * bUpper % MAX_URLS
  let r2 := r1 * 0x10000 % MAX_URLS
  [a * bUpper, r1 * 0x10000, a * bLower, r2 + a * bLower]

/-- One iteration of the base-62 loop of `IndexToShortURL` (SURLTools.go lines 48-58):
the state is the running `index` and the byte slice `strb`. -/
def encodeStep (st : Nat × List Nat) (i : Nat) : Nat × List Nat :=
  let index := st.1
  let b := u8 (index % 62)
  let index := index / 62
  let c :=
    if 0 ≤ b ∧ b < 10 then u8 (b + 48)
    else if 10 ≤ b ∧ b < 10 + 26 then u8 (subU8 b 10 + 97)
    else u8 (subU8 (subU8 b 10) 26 + 65)
  (index, st.2.set i c)

/-- The function `IndexToShortURL` of SURLTools.go lines 31-60. -/
def IndexToShortURL (index : Nat) : Except Abort GoString :=
  let index := u64 (index + 1) % MAX_URLS
  match bigMultMod index 35104476159 with
  | Except.error e => Except.error e
  | Except.ok index =>
    let st := [5, 4, 3, 2, 1, 0].foldl encodeStep (index, List.replicate 6 0)
    Except.ok st.2

/-- One iteration of the parsing loop of `ShortURLToIndex` (SURLTools.go lines 68-77);
`str[i]` panics when `i` is past the end of the string. -/
def decodeStep (str : GoString) (index : Nat) (i : Nat) : Except Abort Nat :=
  match str.get? i with
  | none => Except.error Abort.panic
  | some c =>
    let x :=
      if 48 ≤ c ∧ c ≤ 57 then subU8 c 48
      else if 97 ≤ c ∧ c ≤ 122 then u8 (subU8 c 97 + 10)
      else u8 (u8 (subU8 c 65 + 10) + 26)
    Except.ok (u64 (u64 (62 * index) + x))

/-- The parsing loop of `ShortURLToIndex`, for `i` running through `is`. -/
def decodeLoop (str : GoString) : List Nat → Nat → Except Abort Nat
  | [], index => Except.ok index
  | i :: is, index =>
    match decodeStep str index i with
    | Except.error e => Except.error e
    | Except.ok index => decodeLoop str is index

/-- The function `ShortURLToIndex` of SURLTools.go lines 63-89. -/
def ShortURLToIndex (str : GoString) : Except Abort Nat :=
  match decodeLoop str [0, 1, 2, 3, 4, 5] 0 with
  | Except.error e => Except.error e
  | Except.ok index =>
    match bigMultMod index 768306879 with
    | Except.error e => Except.error e
    | Except.ok index =>
      let index := u64 (index + MAX_URLS)
      Except.ok (subU64 index 1 % MAX_URLS)

/-- Membership of a byte in the class `[0-9a-zA-Z]`. -/
def isAlnum (c : Nat) : Bool :=
  (48 ≤ c && c ≤ 57) || (97 ≤ c && c ≤ 122) || (65 ≤ c && c ≤ 90)

/-- The digit-to-character map in the words of the specification: values 0-9 are
'0'-'9', 10-35 are 'a'-'z', 36-61 are 'A'-'Z'. -/
def base62Digit (d : Nat) : Nat :=
  if d < 10 then 48 + d else if d < 36 then 97 + (d - 10) else 65 + (d - 36)

/-- The character-to-value map inverse to `base62Digit` on the alphabet. -/
def base62Value (c : Nat) : Nat :=
  if 48 ≤ c ∧ c ≤ 57 then c - 48 else if 97 ≤ c ∧ c ≤ 122 then c - 97 + 10 else c - 65 + 36

/-- The six-digit, most-significant-first, zero-padded base-62 representation of `v`
in the words of the specification. -/
def base62Code (v : Nat) : GoString :=
  [5, 4, 3, 2, 1, 0].map (fun k => base62Digit (v / 62 ^ k % 62))

/-- The number a string of base-62 characters denotes, most significant first. -/
def base62Number (c : GoString) : Nat :=
  c.foldl (fun acc ch => 62 * acc + base62Value ch) 0

/-- The scrambled value of the specification, `((i + 1) mod D) * K mod D`. -/
def scramble (i : Nat) : Nat := (i + 1) % MAX_URLS * 35104476159 % MAX_URLS

/-! ## main.go: the record file -/

/-- A Go `error` value, by its message. -/
abbrev GoError := String

/-- One result of `csv.Reader.Read` before end of file: a record, the slice of its
fields (`record[0]`, `record[1]`, ...), or a read error other than `io.EOF`. -/
inductive CsvRead where
  | record (fields : List GoString)
  | failed (err : GoError)
  deriving DecidableEq, Repr

/-- The file `savedURLs.csv` as the program sees it: `Except.error e` when opening it
fails with `e`, otherwise the records it holds, in order, a line the reader rejects
being `CsvRead.failed`. The CSV encoding itself (quoting and line endings, package
encoding/csv) is outside the repository and is not modelled. -/
abbrev CsvFile := Except GoError (List CsvRead)

/-- The library call `strconv.ParseUint(s, 10, 64)`: `none` is a non-nil error (empty
string, a byte that is not a decimal digit, or a value that does not fit 64 bits). -/
def ParseUint (s : GoString) : Option Nat :=
  if s = [] then none
  else
    s.foldl
      (fun acc c =>
        match acc with
        | none => none
        | some n =>
          if 48 ≤ c ∧ c ≤ 57 then
            if n * 10 + (c - 48) < 2 ^ 64 then some (n * 10 + (c - 48)) else none
          else none)
      (some 0)

/-- The library call `strconv.FormatUint(n, 10)`. -/
def FormatUint (n : Nat) : GoString := (Nat.toDigits 10 n).map Char.toNat

/-- The function `ReadFromFile` of main.go lines 22-49. The result is the Go pair
`(string, error)`; `Except.error Abort.fatal` is the `log.Fatal` of line 41, and
`Except.error Abort.panic` is an index out of range in `record[0]` (line 39) or
`record[1]` (line 48). Errors of the skipped reads are ignored, as in the loop of
lines 30-33. -/
def ReadFromFile (file : CsvFile) (index : Nat) : Except Abort (GoString × Option GoError) :=
  match file with
  | Except.error err => Except.ok ([], some err)
  | Except.ok lines =>
    match (lines.drop index).head? with
    | none => Except.ok ([], some "EOF")
    | some (CsvRead.failed err) => Except.ok ([], some err)
    | some (CsvRead.record record) =>
      match record[0]? with
      | none => Except.error Abort.panic
      | some label =>
        match ParseUint label with
        | none => Except.error Abort.fatal
        | some retrievedIndex =>
          if retrievedIndex ≠ index then Except.ok ([], some "read error")
          else
            match record[1]? with
            | none => Except.error Abort.panic
            | some url => Except.ok (url, none)

/-- The function `SaveToFile` of main.go lines 51-67: the error returned, and the file
afterwards. -/
def SaveToFile (index : Nat) (longURL : GoString) (file : CsvFile) : Option GoError × CsvFile :=
  match file with
  | Except.error err => (some err, file)
  | Except.ok lines => (none, Except.ok (lines ++ [CsvRead.record [FormatUint index, longURL]]))

/-- The reading loop of `main` (main.go lines 182-193): `record` is the last record
read so far. -/
def mainLoop : List CsvRead → List GoString → Except Abort (List GoString)
  | [], record => Except.ok record
  | CsvRead.record nr :: rest, _ => mainLoop rest nr
  | CsvRead.failed _ :: _, _ => Except.error Abort.fatal

/-- The block of `main` that loads `TotalIndex` (main.go lines 171-204): the value
loaded, `Abort.fatal` for each `log.Fatal`, `Abort.panic` for an index out of range
in `record[0]`. The loop starts from `make([]string, 2)`. -/
def main (file : CsvFile) : Except Abort Nat :=
  match file with
  | Except.error _ => Except.error Abort.fatal
  | Except.ok lines =>
    match mainLoop lines [[], []] with
    | Except.error e => Except.error e
    | Except.ok record =>
      match record[0]? with
      | none => Except.error Abort.panic
      | some label =>
        if label = [] then Except.ok 0
        else
          match ParseUint label with
          | none => Except.error Abort.fatal
          | some lastIndex => Except.ok (u64 (lastIndex + 1))

/-! ## main.go: the handlers -/

/-- What a handler reads of the request: `r.URL.Path` and `r.FormValue("body")`. -/
structure Request where
  Path : GoString
  body : GoString
  deriving DecidableEq, Repr

/-- The calls a handler makes, in order: on the response writer (`http.NotFound`,
`http.Error`, `http.Redirect`) and to the functions it takes from `mock`. -/
inductive Event where
  | NotFound
  | Error (msg : String) (code : Nat)
  | Redirect (url : GoString) (code : Nat)
  | shortURLToIndex (str : GoString)
  | readFromFile (index : Nat)
  | saveToFile (index : Nat) (longURL : GoString)
  | indexToShortURL (index : Nat)
  | execute (shortURL longURL : GoString)
  deriving DecidableEq, Repr

/-- The calls of one handler run and how it ended (`none`: it returned). -/
structure Reply where
  trace : List Event
  abort : Option Abort
  deriving DecidableEq, Repr

/-- The status the response carries: the one of the first `http.NotFound` (404),
`http.Error` or `http.Redirect` call, when no template output came before it. -/
def statusCode : List Event → Option Nat
  | [] => none
  | Event.NotFound :: _ => some 404
  | Event.Error _ code :: _ => some code
  | Event.Redirect _ code :: _ => some code
  | Event.execute _ _ :: _ => none
  | _ :: rest => statusCode rest

/-! ### net/http: the Location header written by `http.Redirect` -/

/-- What `http.Redirect` uses of `url.Parse(url)`: that it returned an error, or, when
it did not, whether the parsed URL has a scheme or a host (`absolute`) or neither
(`relative`). Package net/url is outside the repository; the classification of a URL
is taken as a parameter wherever it is needed. -/
inductive URLParse where
  | failed
  | absolute
  | relative
  deriving DecidableEq, Repr

/-- A lowercase hexadecimal digit, as `strconv.AppendInt(_, _, 16)` writes it. -/
def hexDigit (d : Nat) : Nat := if d < 10 then 48 + d else 87 + d

/-- The library function `hexEscapeNonASCII` of net/http: every byte from 0x80 up
becomes '%' and its two hexadecimal digits. -/
def hexEscapeNonASCII : GoString → GoString
  | [] => []
  | b :: s =>
    if b ≥ 128 then 37 :: hexDigit (b / 16) :: hexDigit (b % 16) :: hexEscapeNonASCII s
    else b :: hexEscapeNonASCII s

/-- The directory part of the library call `path.Split(p)`: `p` up to and including
its last '/'. -/
def pathSplitDir (p : GoString) : GoString := (p.reverse.dropWhile (fun c => c ≠ 47)).reverse

/-- The backtracking loop of `path.Clean` (`for out.w > dotdot && out.index(out.w) != '/'`):
the buffer is held last byte first, `atW` is the byte at index `out.w`. -/
def cleanBacktrack (dotdot : Nat) : List Nat → Nat → List Nat
  | [], _ => []
  | c :: out, atW =>
    if (c :: out).length > dotdot ∧ atW ≠ 47 then cleanBacktrack dotdot out c else c :: out

/-- The main loop of the library function `path.Clean`: `p` is the part of the path
still to read, `out` the buffer written so far, last byte first. Every iteration
reads at least one byte, so a fuel of the length of the path is enough. -/
def cleanLoop (rooted : Bool) : Nat → List Nat → List Nat → Nat → List Nat
  | 0, _, out, _ => out
  | _ + 1, [], out, _ => out
  | fuel + 1, c :: t, out, dotdot =>
    if c = 47 then cleanLoop rooted fuel t out dotdot
    else if c = 46 ∧ (t = [] ∨ t.head? = some 47) then cleanLoop rooted fuel t out dotdot
    else if c = 46 ∧ t.head? = some 46 ∧ (t.tail = [] ∨ t.tail.head? = some 47) then
      if out.length > dotdot then
        match out with
        | [] => cleanLoop rooted fuel t.tail out dotdot
        | c0 :: out0 => cleanLoop rooted fuel t.tail (cleanBacktrack dotdot out0 c0) dotdot
      else if rooted = false then
        let out1 := if out.length > 0 then 47 :: out else out
        cleanLoop rooted fuel t.tail (46 :: 46 :: out1) (out1.length + 2)
      else cleanLoop rooted fuel t.tail out dotdot
    else
      let out1 :=
        if (rooted = true ∧ out.length ≠ 1) ∨ (rooted = false ∧ out.length ≠ 0) then 47 :: out
        else out
      cleanLoop rooted fuel ((c :: t).dropWhile (fun x => x ≠ 47))
        (((c :: t).takeWhile (fun x => x ≠ 47)).reverse ++ out1) dotdot

/-- The library function `path.Clean`. -/
def pathClean (p : GoString) : GoString :=
  match p with
  | [] => [46]
  | c :: _ =>
    let rooted : Bool := c = 47
    let out :=
      if rooted then cleanLoop rooted (p.length + 1) (p.drop 1) [47] 1
      else cleanLoop rooted (p.length + 1) p [] 0
    if out.length = 0 then [46] else out.reverse

/-- The value `http.Redirect(w, r, url, code)` sets as the Location header, for a
request with path `oldpath`; `parsed` is what `url.Parse(url)` gave. A URL without
scheme and host is made absolute against the request path and cleaned, its query
kept; in every case bytes from 0x80 up are escaped. -/
def httpRedirectLocation (parsed : URLParse) (oldpath url : GoString) : GoString :=
  match parsed with
  | URLParse.relative =>
    let oldpath := if oldpath = [] then [47] else oldpath
    let url := if url = [] ∨ url.head? ≠ some 47 then pathSplitDir oldpath ++ url else url
    let query := url.dropWhile (fun c => c ≠ 63)
    let url := url.takeWhile (fun c => c ≠ 63)
    let trailing := url.getLast? = some 47
    let url := pathClean url
    let url := if trailing ∧ url.getLast? ≠ some 47 then url ++ [47] else url
    hexEscapeNonASCII (url ++ query)
  | _ => hexEscapeNonASCII url

/-- The Location header of the response: the one the first `http.Redirect` call of
the handler sets. -/
def locationHeader (urlParse : GoString → URLParse) (r : Request) : List Event → Option GoString
  | [] => none
  | Event.Redirect url _ :: _ => some (httpRedirectLocation (urlParse url) r.Path url)
  | _ :: rest => locationHeader urlParse r rest

/-- The pattern `validShortURL`, `^[0-9a-zA-Z]{6}$` (main.go line 19). -/
def validShortURL (s : GoString) : Bool :=
  s.length == 6 && s.all isAlnum

/-- The function `RedirectHandler` of main.go lines 99-125, over the three values it
takes from `mock` (or their defaults). -/
def RedirectHandler (totalIndex : Nat) (shortURLToIndex : GoString → Except Abort Nat)
    (readFromFile : Nat → Except Abort (GoString × Option GoError)) (r : Request) : Reply :=
  match r.Path with
  | [] => ⟨[], some Abort.panic⟩
  | _ :: shortURL =>
    if validShortURL shortURL = false then ⟨[Event.NotFound], none⟩
    else
      match shortURLToIndex shortURL with
      | Except.error e => ⟨[Event.shortURLToIndex shortURL], some e⟩
      | Except.ok index =>
        if index ≥ totalIndex then
          ⟨[Event.shortURLToIndex shortURL, Event.NotFound], none⟩
        else
          match readFromFile index with
          | Except.error e =>
            ⟨[Event.shortURLToIndex shortURL, Event.readFromFile index], some e⟩
          | Except.ok (longURL, err) =>
            match err with
            | some msg =>
              ⟨[Event.shortURLToIndex shortURL, Event.readFromFile index,
                Event.Error msg 500], none⟩
            | none =>
              ⟨[Event.shortURLToIndex shortURL, Event.readFromFile index,
                Event.Redirect longURL 302], none⟩

/-- The result of one `ShortenHandler` run: its calls, the counter `*totalIndex` and
the state behind `saveToFile` afterwards. -/
structure Shortened (σ : Type) where
  reply : Reply
  totalIndex : Nat
  store : σ

/-- The path `"/shorten/"`. -/
def shortenPath : GoString := [47, 115, 104, 111, 114, 116, 101, 110, 47]

/-- The function `ShortenHandler` of main.go lines 127-168, over the four values it
takes from `mock` (or their defaults); `store` is the state `saveToFile` acts on. -/
def ShortenHandler {σ : Type} (totalIndex : Nat)
    (saveToFile : Nat → GoString → σ → Option GoError × σ)
    (indexToShortURL : Nat → Except Abort GoString)
    (execute : GoString → GoString → Option GoError)
    (r : Request) (store : σ) : Shortened σ :=
  if r.Path ≠ shortenPath then ⟨⟨[Event.NotFound], none⟩, totalIndex, store⟩
  else
    let longURL := r.body
    if longURL = [] then ⟨⟨[Event.Error "no URL to shorten" 400], none⟩, totalIndex, store⟩
    else if totalIndex ≥ MAX_URLS then
      ⟨⟨[Event.Error "set of short URLs exhausted" 500], none⟩, totalIndex, store⟩
    else
      let saved := saveToFile totalIndex longURL store
      let t1 := [Event.saveToFile totalIndex longURL]
      let t2 := if saved.1 ≠ none then t1 ++ [Event.Error "unable to save URL" 500] else t1
      let t3 := t2 ++ [Event.indexToShortURL totalIndex]
      match indexToShortURL totalIndex with
      | Except.error e => ⟨⟨t3, some e⟩, totalIndex, saved.2⟩
      | Except.ok shortURL =>
        let totalIndex := u64 (totalIndex + 1)
        let t4 := t3 ++ [Event.execute shortURL longURL]
        if execute shortURL longURL ≠ none then
          ⟨⟨t4 ++ [Event.Error "unable to render page" 500], none⟩, totalIndex, saved.2⟩
        else ⟨⟨t4, none⟩, totalIndex, saved.2⟩

/-- The calls of a `ShortenHandler` run that saves the record `(k, u)` and shows the
code of `k`: `saveToFile`, `indexToShortURL`, the template with that code, and the
500 answer of line 166 when the template fails. -/
def shortenReply (execute : GoString → GoString → Option GoError) (k : Nat) (u : GoString) :
    Reply :=
  ⟨[Event.saveToFile k u, Event.indexToShortURL k, Event.execute (base62Code (scramble k)) u]
      ++ (if execute (base62Code (scramble k)) u ≠ none then
            [Event.Error "unable to render page" 500]
          else []),
    none⟩

/-- Successive `ShortenHandler` calls with the program's own `SaveToFile` and
`IndexToShortURL`, one per request, each starting from the counter and file the
previous one left: the replies in order, then the final counter and file. -/
def shortenAll (execute : GoString → GoString → Option GoError) :
    List Request → Nat → CsvFile → List Reply × Nat × CsvFile
  | [], totalIndex, file => ([], totalIndex, file)
  | r :: rs, totalIndex, file =>
    let res := ShortenHandler totalIndex SaveToFile IndexToShortURL execute r file
    let rest := shortenAll execute rs res.totalIndex res.store
    (res.reply :: rest.1, rest.2)

/-! ## Arithmetic of the codec -/

theorem u64_of_lt {n : Nat} (h : n < 2 ^ 64) : u64 n = n := by
  unfold u64; exact Nat.mod_eq_of_lt h

theorem MAX_URLS_eq : MAX_URLS = 56800235584 := by decide

theorem and_lower (b : Nat) : b &&& 0xffff = b % 65536 := by
  have h := Nat.and_pow_two_sub_one_eq_mod b 16
  norm_num at h
  simpa using h

theorem and_upper (b : Nat) (hb : b < 2 ^ 36) :
    (b &&& 0xfffff0000) / 0x10000 = b / 65536 := by
  have h1 : (b &&& 0xfffff0000) / 0x10000 = (b &&& 0xfffff0000) >>> 16 := by
    rw [Nat.shiftRight_eq_div_pow]
  have h0 : (b &&& 0xfffff0000) >>> 16 = b >>> 16 &&& 0xfffff0000 >>> 16 := by
    apply Nat.eq_of_testBit_eq
    intro i
    simp only [Nat.testBit_shiftRight, Nat.testBit_and]
  rw [h1, h0]
  have h2 : (0xfffff0000 : Nat) >>> 16 = 2 ^ 20 - 1 := by decide
  rw [h2, Nat.and_pow_two_sub_one_eq_mod, Nat.shiftRight_eq_div_pow]
  norm_num
  norm_num at hb
  omega

/-- On 36-bit operands no step of `bigMultMod` wraps, and the result is the exact
product modulo `MAX_URLS`. -/
theorem bigMultMod_exact (a b : Nat) (ha : a < 2 ^ 36) (hb : b < 2 ^ 36) :
    bigMultMod a b = Except.ok (a * b % MAX_URLS) := by
  have hs : (1 : Nat) <<< 36 = 2 ^ 36 := by decide
  unfold bigMultMod
  rw [hs, if_neg (by omega)]
  simp only [and_lower, and_upper b hb]
  have hU : b / 65536 < 2 ^ 20 := by norm_num at hb ⊢; omega
  have hL : b % 65536 < 2 ^ 16 := by norm_num; omega
  have hD : MAX_URLS < 2 ^ 36 := by decide
  have h1 : a * (b / 65536) < 2 ^ 64 := by
    calc a * (b / 65536) < 2 ^ 36 * 2 ^ 20 := Nat.mul_lt_mul'' ha hU
      _ < 2 ^ 64 := by norm_num
  have h3 : a * (b % 65536) < 2 ^ 52 := by
    calc a * (b % 65536) < 2 ^ 36 * 2 ^ 16 := Nat.mul_lt_mul'' ha hL
      _ = 2 ^ 52 := by norm_num
  have hr : a * (b / 65536) % MAX_URLS < 2 ^ 36 :=
    lt_trans (Nat.mod_lt _ (by decide)) hD
  have h2 : a * (b / 65536) % MAX_URLS * 0x10000 < 2 ^ 64 := by
    norm_num at hr ⊢; omega
  have hr2 : a * (b / 65536) % MAX_URLS * 0x10000 % MAX_URLS < 2 ^ 36 :=
    lt_trans (Nat.mod_lt _ (by decide)) hD
  rw [u64_of_lt h1, u64_of_lt h2, u64_of_lt (lt_trans h3 (by norm_num)),
    u64_of_lt (by norm_num at hr2 h3 ⊢; omega)]
  congr 1
  have hb' : a * b = a * (b / 65536) * 0x10000 + a * (b % 65536) := by
    conv_lhs => rw [← Nat.div_add_mod b 65536]
    ring
  rw [hb']
  simp [Nat.add_mod, Nat.mul_mod]

theorem bigMultMod_fatal (a b : Nat) (h : 2 ^ 36 ≤ a ∨ 2 ^ 36 ≤ b) :
    bigMultMod a b = Except.error Abort.fatal := by
  have hs : (1 : Nat) <<< 36 = 2 ^ 36 := by decide
  unfold bigMultMod
  rw [hs, if_pos h]

/-! ## Base-62 digits -/

theorem encodeStep_eq (st : Nat × List Nat) (i : Nat) :
    encodeStep st i = (st.1 / 62, st.2.set i (base62Digit (st.1 % 62))) := by
  have h : st.1 % 62 < 62 := Nat.mod_lt _ (by decide)
  unfold encodeStep base62Digit u8 subU8
  simp only []
  congr 2
  split_ifs <;> omega

theorem encode_digits (v : Nat) :
    ([5, 4, 3, 2, 1, 0].foldl encodeStep (v, List.replicate 6 0)).2 = base62Code v := by
  simp only [List.foldl, encodeStep_eq, base62Code, List.replicate, List.set, List.map]
  norm_num [Nat.div_div_eq_div_mul]

theorem base62Digit_alnum (d : Nat) (h : d < 62) : isAlnum (base62Digit d) = true := by
  unfold isAlnum base62Digit
  simp only [Bool.or_eq_true, Bool.and_eq_true, decide_eq_true_eq]
  split_ifs <;> omega

theorem base62Value_digit (d : Nat) (h : d < 62) : base62Value (base62Digit d) = d := by
  unfold base62Value base62Digit
  split_ifs <;> omega

theorem base62Value_lt (c : Nat) (h : isAlnum c = true) : base62Value c < 62 := by
  unfold isAlnum at h
  simp only [Bool.or_eq_true, Bool.and_eq_true, decide_eq_true_eq] at h
  unfold base62Value
  split_ifs <;> omega

theorem base62Digit_value (c : Nat) (h : isAlnum c = true) :
    base62Digit (base62Value c) = c := by
  unfold isAlnum at h
  simp only [Bool.or_eq_true, Bool.and_eq_true, decide_eq_true_eq] at h
  unfold base62Value base62Digit
  split_ifs <;> omega

theorem decodeStep_alnum (str : GoString) (index i c : Nat) (hc : str.get? i = some c)
    (ha : isAlnum c = true) (hi : index < 2 ^ 36) :
    decodeStep str index i = Except.ok (62 * index + base62Value c) := by
  have hv := base62Value_lt c ha
  unfold isAlnum at ha
  simp only [Bool.or_eq_true, Bool.and_eq_true, decide_eq_true_eq] at ha
  unfold decodeStep
  rw [hc]
  simp only []
  congr 1
  have hx : (if 48 ≤ c ∧ c ≤ 57 then subU8 c 48
      else if 97 ≤ c ∧ c ≤ 122 then u8 (subU8 c 97 + 10)
      else u8 (u8 (subU8 c 65 + 10) + 26)) = base62Value c := by
    unfold base62Value u8 subU8
    split_ifs <;> omega
  rw [hx]
  norm_num at hi
  have h1 : u64 (62 * index) = 62 * index := u64_of_lt (by norm_num; omega)
  rw [h1]
  exact u64_of_lt (by norm_num; omega)

theorem validShortURL_cases (c : GoString) (h : validShortURL c = true) :
    ∃ c0 c1 c2 c3 c4 c5, c = [c0, c1, c2, c3, c4, c5] ∧ isAlnum c0 = true ∧
      isAlnum c1 = true ∧ isAlnum c2 = true ∧ isAlnum c3 = true ∧ isAlnum c4 = true ∧
      isAlnum c5 = true := by
  unfold validShortURL at h
  simp only [Bool.and_eq_true, beq_iff_eq] at h
  obtain ⟨hl, ha⟩ := h
  match c, hl, ha with
  | [c0, c1, c2, c3, c4, c5], _, ha =>
    simp only [List.all_cons, List.all_nil, Bool.and_true, Bool.and_eq_true] at ha
    exact ⟨c0, c1, c2, c3, c4, c5, rfl, ha.1, ha.2.1, ha.2.2.1, ha.2.2.2.1, ha.2.2.2.2.1,
      ha.2.2.2.2.2⟩

theorem base62Number_lt (c : GoString) (h : validShortURL c = true) :
    base62Number c < MAX_URLS := by
  obtain ⟨c0, c1, c2, c3, c4, c5, rfl, h0, h1, h2, h3, h4, h5⟩ := validShortURL_cases c h
  have b0 := base62Value_lt c0 h0
  have b1 := base62Value_lt c1 h1
  have b2 := base62Value_lt c2 h2
  have b3 := base62Value_lt c3 h3
  have b4 := base62Value_lt c4 h4
  have b5 := base62Value_lt c5 h5
  rw [MAX_URLS_eq]
  simp only [base62Number, List.foldl]
  omega

theorem decodeLoop_valid (c : GoString) (h : validShortURL c = true) :
    decodeLoop c [0, 1, 2, 3, 4, 5] 0 = Except.ok (base62Number c) := by
  obtain ⟨c0, c1, c2, c3, c4, c5, rfl, h0, h1, h2, h3, h4, h5⟩ := validShortURL_cases c h
  have b0 := base62Value_lt c0 h0
  have b1 := base62Value_lt c1 h1
  have b2 := base62Value_lt c2 h2
  have b3 := base62Value_lt c3 h3
  have b4 := base62Value_lt c4 h4
  have b5 := base62Value_lt c5 h5
  simp only [decodeLoop]
  rw [decodeStep_alnum [c0, c1, c2, c3, c4, c5] _ 0 c0 rfl h0 (by norm_num)]
  simp only []
  rw [decodeStep_alnum [c0, c1, c2, c3, c4, c5] _ 1 c1 rfl h1 (by norm_num; omega)]
  simp only []
  rw [decodeStep_alnum [c0, c1, c2, c3, c4, c5] _ 2 c2 rfl h2 (by norm_num; omega)]
  simp only []
  rw [decodeStep_alnum [c0, c1, c2, c3, c4, c5] _ 3 c3 rfl h3 (by norm_num; omega)]
  simp only []
  rw [decodeStep_alnum [c0, c1, c2, c3, c4, c5] _ 4 c4 rfl h4 (by norm_num; omega)]
  simp only []
  rw [decodeStep_alnum [c0, c1, c2, c3, c4, c5] _ 5 c5 rfl h5 (by norm_num; omega)]
  simp only [base62Number, List.foldl]

theorem base62Code_valid (v : Nat) : validShortURL (base62Code v) = true := by
  have h : ∀ n, isAlnum (base62Digit (n % 62)) = true :=
    fun n => base62Digit_alnum _ (Nat.mod_lt _ (by decide))
  simp [validShortURL, base62Code, h]

theorem base62Number_code (v : Nat) (hv : v < MAX_URLS) : base62Number (base62Code v) = v := by
  have h : ∀ k, base62Value (base62Digit (v / 62 ^ k % 62)) = v / 62 ^ k % 62 :=
    fun k => base62Value_digit _ (Nat.mod_lt _ (by decide))
  rw [MAX_URLS_eq] at hv
  simp only [base62Number, base62Code, List.map, List.foldl, h]
  norm_num
  omega

theorem base62Code_number (c : GoString) (h : validShortURL c = true) :
    base62Code (base62Number c) = c := by
  obtain ⟨c0, c1, c2, c3, c4, c5, rfl, h0, h1, h2, h3, h4, h5⟩ := validShortURL_cases c h
  have b0 := base62Value_lt c0 h0
  have b1 := base62Value_lt c1 h1
  have b2 := base62Value_lt c2 h2
  have b3 := base62Value_lt c3 h3
  have b4 := base62Value_lt c4 h4
  have b5 := base62Value_lt c5 h5
  have e0 := base62Digit_value c0 h0
  have e1 := base62Digit_value c1 h1
  have e2 := base62Digit_value c2 h2
  have e3 := base62Digit_value c3 h3
  have e4 := base62Digit_value c4 h4
  have e5 := base62Digit_value c5 h5
  simp only [base62Number, base62Code, List.map, List.foldl]
  norm_num
  refine ⟨?_, ?_, ?_, ?_, ?_, ?_⟩
  · exact (congrArg base62Digit (by omega)).trans e0
  · exact (congrArg base62Digit (by omega)).trans e1
  · exact (congrArg base62Digit (by omega)).trans e2
  · exact (congrArg base62Digit (by omega)).trans e3
  · exact (congrArg base62Digit (by omega)).trans e4
  · exact (congrArg base62Digit (by omega)).trans e5

/-! ## The two directions of the transform -/

theorem IndexToShortURL_eq (i : Nat) :
    IndexToShortURL i = Except.ok (base62Code (u64 (i + 1) % MAX_URLS * 35104476159 % MAX_URLS)) := by
  have hD : MAX_URLS < 2 ^ 36 := by decide
  have h1 : u64 (i + 1) % MAX_URLS < 2 ^ 36 := lt_trans (Nat.mod_lt _ (by decide)) hD
  unfold IndexToShortURL
  simp only []
  have hk : (35104476159 : Nat) < 2 ^ 36 := by norm_num
  rw [bigMultMod_exact _ _ h1 hk]
  simp only [encode_digits]

theorem IndexToShortURL_of_lt (i : Nat) (hi : i < MAX_URLS) :
    IndexToShortURL i = Except.ok (base62Code (scramble i)) := by
  have h : u64 (i + 1) = i + 1 := u64_of_lt (by rw [MAX_URLS_eq] at hi; norm_num; omega)
  rw [IndexToShortURL_eq, h, scramble]

theorem ShortURLToIndex_valid (c : GoString) (h : validShortURL c = true) :
    ShortURLToIndex c =
      Except.ok ((base62Number c * 768306879 % MAX_URLS + MAX_URLS - 1) % MAX_URLS) := by
  have hD : MAX_URLS < 2 ^ 36 := by decide
  have hn : base62Number c < 2 ^ 36 := lt_trans (base62Number_lt c h) hD
  have hy : base62Number c * 768306879 % MAX_URLS < MAX_URLS := Nat.mod_lt _ (by decide)
  unfold ShortURLToIndex
  have hk : (768306879 : Nat) < 2 ^ 36 := by norm_num
  rw [decodeLoop_valid c h]
  simp only []
  rw [bigMultMod_exact _ _ hn hk]
  simp only []
  refine congrArg Except.ok ?_
  rw [MAX_URLS_eq] at hy ⊢
  generalize base62Number c * 768306879 % 56800235584 = y at hy ⊢
  unfold subU64 u64
  omega

theorem unscramble_scramble (x : Nat) :
    x * 35104476159 % MAX_URLS * 768306879 % MAX_URLS = x % MAX_URLS := by
  have hk : 35104476159 * 768306879 % MAX_URLS = 1 := by rw [MAX_URLS_eq]
  rw [Nat.mod_mul_mod, Nat.mul_assoc, Nat.mul_mod, hk, Nat.mul_one, Nat.mod_mod]

theorem scramble_unscramble (x : Nat) :
    x * 768306879 % MAX_URLS * 35104476159 % MAX_URLS = x % MAX_URLS := by
  have hk : 768306879 * 35104476159 % MAX_URLS = 1 := by rw [MAX_URLS_eq]
  rw [Nat.mod_mul_mod, Nat.mul_assoc, Nat.mul_mod, hk, Nat.mul_one, Nat.mod_mod]

theorem scramble_lt (i : Nat) : scramble i < MAX_URLS := Nat.mod_lt _ (by decide)

theorem decode_encode (i : Nat) (hi : i < MAX_URLS) :
    ShortURLToIndex (base62Code (scramble i)) = Except.ok i := by
  rw [ShortURLToIndex_valid _ (base62Code_valid _), base62Number_code _ (scramble_lt i)]
  refine congrArg Except.ok ?_
  unfold scramble
  rw [unscramble_scramble, Nat.mod_mod]
  rw [MAX_URLS_eq] at hi ⊢
  omega

theorem encode_decode (c : GoString) (h : validShortURL c = true) :
    ∃ i, i < MAX_URLS ∧ ShortURLToIndex c = Except.ok i ∧ IndexToShortURL i = Except.ok c := by
  have hx := base62Number_lt c h
  refine ⟨(base62Number c * 768306879 % MAX_URLS + MAX_URLS - 1) % MAX_URLS,
    Nat.mod_lt _ (by decide), ShortURLToIndex_valid c h, ?_⟩
  rw [IndexToShortURL_of_lt _ (Nat.mod_lt _ (by decide))]
  refine congrArg Except.ok ?_
  unfold scramble
  have hy : base62Number c * 768306879 % MAX_URLS < MAX_URLS := Nat.mod_lt _ (by decide)
  have h1 : ((base62Number c * 768306879 % MAX_URLS + MAX_URLS - 1) % MAX_URLS + 1) % MAX_URLS
      = base62Number c * 768306879 % MAX_URLS := by
    rw [MAX_URLS_eq] at hy ⊢
    omega
  rw [h1, scramble_unscramble, Nat.mod_eq_of_lt hx, base62Code_number c h]

theorem bigMultModUnreduced_lt (a b : Nat) (ha : a < 2 ^ 36) (hb : b < 2 ^ 36) :
    ∀ x ∈ bigMultModUnreduced a b, x < 2 ^ 64 := by
  have hU : b / 65536 < 2 ^ 20 := by norm_num at hb ⊢; omega
  have hL : b % 65536 < 2 ^ 16 := by norm_num; omega
  have hD : MAX_URLS < 2 ^ 36 := by decide
  have h1 : a * (b / 65536) < 2 ^ 56 := by
    calc a * (b / 65536) < 2 ^ 36 * 2 ^ 20 := Nat.mul_lt_mul'' ha hU
      _ = 2 ^ 56 := by norm_num
  have h3 : a * (b % 65536) < 2 ^ 52 := by
    calc a * (b % 65536) < 2 ^ 36 * 2 ^ 16 := Nat.mul_lt_mul'' ha hL
      _ = 2 ^ 52 := by norm_num
  have hr : a * (b / 65536) % MAX_URLS < 2 ^ 36 :=
    lt_trans (Nat.mod_lt _ (by decide)) hD
  have hr2 : a * (b / 65536) % MAX_URLS * 0x10000 % MAX_URLS < 2 ^ 36 :=
    lt_trans (Nat.mod_lt _ (by decide)) hD
  intro x hx
  simp only [bigMultModUnreduced, and_lower, and_upper b hb, List.mem_cons,
    List.mem_singleton, List.not_mem_nil, or_false] at hx
  rcases hx with rfl | rfl | rfl | rfl <;> omega

theorem validShortURL_iff (c : GoString) :
    validShortURL c = true ↔ c.length = 6 ∧ ∀ ch ∈ c, isAlnum ch = true := by
  simp [validShortURL, List.all_eq_true]

/-! ## The properties of the codec -/

/-- C10: for operands below 2^36, `bigMultMod`, evaluated with wrapping 64-bit
arithmetic, returns exactly `(a * b) mod 62^6`, and none of the products and sums it
forms reaches 2^64; when an operand is 2^36 or more it takes the fatal branch. -/
theorem bigMultMod_overflow_free (a b : Nat) :
    (a < 2 ^ 36 → b < 2 ^ 36 →
      bigMultMod a b = Except.ok (a * b % 62 ^ 6) ∧
        ∀ x ∈ bigMultModUnreduced a b, x < 2 ^ 64) ∧
    (2 ^ 36 ≤ a ∨ 2 ^ 36 ≤ b → bigMultMod a b = Except.error Abort.fatal) := by
  refine ⟨fun ha hb => ⟨?_, bigMultModUnreduced_lt a b ha hb⟩, bigMultMod_fatal a b⟩
  rw [bigMultMod_exact a b ha hb, MAX_URLS_eq]
  norm_num

theorem bigMultMod_overflow_free_witness :
    (bigMultMod 68719476735 68719476735 = Except.ok (68719476735 * 68719476735 % 62 ^ 6) ∧
        ∀ x ∈ bigMultModUnreduced 68719476735 68719476735, x < 2 ^ 64) ∧
      bigMultMod 68719476736 1 = Except.error Abort.fatal :=
  ⟨(bigMultMod_overflow_free 68719476735 68719476735).1 (by norm_num) (by norm_num),
    (bigMultMod_overflow_free 68719476736 1).2 (Or.inl (by norm_num))⟩

/-- C1: for every index `i` below `MAX_URLS = 62^6`, `IndexToShortURL i` returns a
code (the fatal branch of `bigMultMod` is not reached) and `ShortURLToIndex` of that
code returns `i`. -/
theorem ShortURLToIndex_IndexToShortURL (i : Nat) (hi : i < MAX_URLS) :
    ∃ code, IndexToShortURL i = Except.ok code ∧ ShortURLToIndex code = Except.ok i :=
  ⟨base62Code (scramble i), IndexToShortURL_of_lt i hi, decode_encode i hi⟩

theorem ShortURLToIndex_IndexToShortURL_witness :
    12345 < MAX_URLS ∧
      ∃ code, IndexToShortURL 12345 = Except.ok code ∧ ShortURLToIndex code = Except.ok 12345 :=
  ⟨by decide, ShortURLToIndex_IndexToShortURL 12345 (by decide)⟩

/-- C3: on the indexes below 62^6, `IndexToShortURL` is a bijection onto the strings of
exactly six characters from 0-9a-zA-Z: distinct indexes get distinct codes, every code
it returns is such a string, and every such string `c` is the code of the index
`ShortURLToIndex c`, which lies in the range. -/
theorem IndexToShortURL_bijective :
    (∀ i j, i < 62 ^ 6 → j < 62 ^ 6 → IndexToShortURL i = IndexToShortURL j → i = j) ∧
    (∀ i, i < 62 ^ 6 → ∃ c, IndexToShortURL i = Except.ok c ∧ c.length = 6 ∧
      ∀ ch ∈ c, isAlnum ch = true) ∧
    (∀ c : GoString, c.length = 6 → (∀ ch ∈ c, isAlnum ch = true) →
      ∃ i, i < 62 ^ 6 ∧ ShortURLToIndex c = Except.ok i ∧ IndexToShortURL i = Except.ok c) := by
  have hD : MAX_URLS = 62 ^ 6 := by rw [MAX_URLS_eq]; norm_num
  rw [← hD]
  refine ⟨?_, ?_, ?_⟩
  · intro i j hi hj h
    rw [IndexToShortURL_of_lt i hi, IndexToShortURL_of_lt j hj] at h
    have hc : base62Code (scramble i) = base62Code (scramble j) := Except.ok.inj h
    have h1 := decode_encode i hi
    rw [hc, decode_encode j hj] at h1
    exact (Except.ok.inj h1).symm
  · intro i hi
    exact ⟨_, IndexToShortURL_of_lt i hi, (validShortURL_iff _).1 (base62Code_valid _)⟩
  · intro c hl ha
    exact encode_decode c ((validShortURL_iff c).2 ⟨hl, ha⟩)

theorem IndexToShortURL_bijective_witness :
    (IndexToShortURL 0 = IndexToShortURL 0 → 0 = 0) ∧
    (∃ c, IndexToShortURL 7 = Except.ok c ∧ c.length = 6 ∧ ∀ ch ∈ c, isAlnum ch = true) ∧
    (∃ i, i < 62 ^ 6 ∧ ShortURLToIndex [97, 98, 99, 100, 101, 102] = Except.ok i ∧
      IndexToShortURL i = Except.ok [97, 98, 99, 100, 101, 102]) :=
  ⟨IndexToShortURL_bijective.1 0 0 (by norm_num) (by norm_num),
    IndexToShortURL_bijective.2.1 7 (by norm_num),
    IndexToShortURL_bijective.2.2 [97, 98, 99, 100, 101, 102] rfl (by decide)⟩

/-- C4: for every index `i` below 62^6, `IndexToShortURL i` is a string of exactly six
bytes, each a digit, a lowercase or an uppercase ASCII letter, and it is the
most-significant-first, zero-padded base-62 representation (`base62Code`) of the
scrambled value `((i + 1) mod 62^6) * 35104476159 mod 62^6`, whose digits denote that
value. -/
theorem IndexToShortURL_alphabet_length (i : Nat) (hi : i < 62 ^ 6) :
    ∃ code, IndexToShortURL i = Except.ok code ∧ code.length = 6 ∧
      (∀ ch ∈ code, (48 ≤ ch ∧ ch ≤ 57) ∨ (97 ≤ ch ∧ ch ≤ 122) ∨ (65 ≤ ch ∧ ch ≤ 90)) ∧
      code = base62Code ((i + 1) % 62 ^ 6 * 35104476159 % 62 ^ 6) ∧
      base62Number code = (i + 1) % 62 ^ 6 * 35104476159 % 62 ^ 6 := by
  have hD : MAX_URLS = 62 ^ 6 := by rw [MAX_URLS_eq]; norm_num
  rw [← hD] at hi ⊢
  have hv := (validShortURL_iff _).1 (base62Code_valid (scramble i))
  refine ⟨base62Code (scramble i), IndexToShortURL_of_lt i hi, hv.1, ?_, rfl,
    base62Number_code _ (scramble_lt i)⟩
  intro ch hch
  have h := hv.2 ch hch
  unfold isAlnum at h
  simpa only [Bool.or_eq_true, Bool.and_eq_true, decide_eq_true_eq, or_assoc] using h

theorem IndexToShortURL_alphabet_length_witness :
    (0 : Nat) < 62 ^ 6 ∧
    ∃ code, IndexToShortURL 0 = Except.ok code ∧ code.length = 6 ∧
      (∀ ch ∈ code, (48 ≤ ch ∧ ch ≤ 57) ∨ (97 ≤ ch ∧ ch ≤ 122) ∨ (65 ≤ ch ∧ ch ≤ 90)) ∧
      code = base62Code ((0 + 1) % 62 ^ 6 * 35104476159 % 62 ^ 6) ∧
      base62Number code = (0 + 1) % 62 ^ 6 * 35104476159 % 62 ^ 6 :=
  ⟨by norm_num, IndexToShortURL_alphabet_length 0 (by norm_num)⟩

/-! ## The handlers -/

/-- C9: a `ShortenHandler` call with path "/shorten/" and a non-empty URL, made when
the counter is `MAX_URLS` or more, answers 500, makes no `saveToFile` call and leaves
the counter and the store as they were; and whatever the counter, an index the handler
passes to `saveToFile` is the counter's value and is below 62^6. -/
theorem ShortenHandler_exhausted {σ : Type} (n : Nat)
    (saveToFile : Nat → GoString → σ → Option GoError × σ)
    (indexToShortURL : Nat → Except Abort GoString)
    (execute : GoString → GoString → Option GoError) (r : Request) (store : σ) :
    (r.Path = shortenPath → r.body ≠ [] → MAX_URLS ≤ n →
      (ShortenHandler n saveToFile indexToShortURL execute r store).reply =
          ⟨[Event.Error "set of short URLs exhausted" 500], none⟩ ∧
        statusCode (ShortenHandler n saveToFile indexToShortURL execute r store).reply.trace
          = some 500 ∧
        (∀ i u, Event.saveToFile i u ∉
          (ShortenHandler n saveToFile indexToShortURL execute r store).reply.trace) ∧
        (ShortenHandler n saveToFile indexToShortURL execute r store).totalIndex = n ∧
        (ShortenHandler n saveToFile indexToShortURL execute r store).store = store) ∧
    (∀ i u, Event.saveToFile i u ∈
        (ShortenHandler n saveToFile indexToShortURL execute r store).reply.trace →
      i = n ∧ i < 62 ^ 6) := by
  have hD : MAX_URLS = 62 ^ 6 := by rw [MAX_URLS_eq]; norm_num
  constructor
  · intro hp hb hn
    have hn' : n ≥ MAX_URLS := hn
    simp [ShortenHandler, hp, hb, hn', statusCode]
  · intro i u
    rw [← hD]
    unfold ShortenHandler
    by_cases hp : r.Path = shortenPath
    · by_cases hb : r.body = []
      · simp [hp, hb]
      · by_cases hn : n ≥ MAX_URLS
        · simp [hp, hb, hn]
        · have hlt : n < MAX_URLS := Nat.lt_of_not_le hn
          simp only [hp, hb, hn, ne_eq, not_true_eq_false, if_false]
          cases indexToShortURL n with
          | error e =>
            simp only []
            split_ifs <;> simp <;> intro h _ <;> exact ⟨h, h ▸ hlt⟩
          | ok c =>
            simp only []
            split_ifs <;> simp <;> intro h _ <;> exact ⟨h, h ▸ hlt⟩
    · simp [hp]

theorem ShortenHandler_exhausted_witness :
    (ShortenHandler (62 ^ 6) SaveToFile IndexToShortURL (fun _ _ => none)
        ⟨shortenPath, [120]⟩ (Except.ok [])).reply =
      ⟨[Event.Error "set of short URLs exhausted" 500], none⟩ ∧
    (ShortenHandler (62 ^ 6) SaveToFile IndexToShortURL (fun _ _ => none)
        ⟨shortenPath, [120]⟩ (Except.ok [])).totalIndex = 62 ^ 6 :=
  ⟨((ShortenHandler_exhausted (62 ^ 6) SaveToFile IndexToShortURL (fun _ _ => none)
      ⟨shortenPath, [120]⟩ (Except.ok [])).1 rfl (by decide) (by decide)).1,
    ((ShortenHandler_exhausted (62 ^ 6) SaveToFile IndexToShortURL (fun _ _ => none)
      ⟨shortenPath, [120]⟩ (Except.ok [])).1 rfl (by decide) (by decide)).2.2.2.1⟩

/-- When `saveToFile` returns an error, `ShortenHandler` writes the 500 answer and
then goes on (main.go lines 158-162): the counter is incremented all the same. -/
theorem ShortenHandler_save_error {σ : Type} (n : Nat)
    (saveToFile : Nat → GoString → σ → Option GoError × σ)
    (indexToShortURL : Nat → Except Abort GoString)
    (execute : GoString → GoString → Option GoError) (r : Request) (store : σ)
    (code : GoString) (hp : r.Path = shortenPath) (hb : r.body ≠ []) (hn : n < MAX_URLS)
    (herr : (saveToFile n r.body store).1 ≠ none) (hc : indexToShortURL n = Except.ok code) :
    (ShortenHandler n saveToFile indexToShortURL execute r store).totalIndex = n + 1 ∧
      statusCode (ShortenHandler n saveToFile indexToShortURL execute r store).reply.trace
        = some 500 := by
  have hn' : ¬ n ≥ MAX_URLS := Nat.not_le_of_lt hn
  have h1 : u64 (n + 1) = n + 1 :=
    u64_of_lt (by rw [MAX_URLS_eq] at hn; norm_num; omega)
  unfold ShortenHandler
  simp only [hp, hb, hn', herr, hc, ne_eq, not_true_eq_false, not_false_eq_true, if_false,
    if_true, h1]
  split_ifs <;> simp [statusCode]

/-- C2, the behaviour of the code at the failing input: with the counter at 0 and a
file that cannot be opened, `SaveToFile` returns an error, `ShortenHandler` answers
500, no record is written, and the counter is 1 afterwards. -/
theorem ShortenHandler_failed_save_spends_index :
    (SaveToFile 0 [120] (Except.error "open savedURLs.csv: no such file or directory")).1
        ≠ none ∧
      (ShortenHandler 0 SaveToFile IndexToShortURL (fun _ _ => none) ⟨shortenPath, [120]⟩
        (Except.error "open savedURLs.csv: no such file or directory")).totalIndex = 1 ∧
      statusCode (ShortenHandler 0 SaveToFile IndexToShortURL (fun _ _ => none)
        ⟨shortenPath, [120]⟩
        (Except.error "open savedURLs.csv: no such file or directory")).reply.trace
        = some 500 ∧
      (ShortenHandler 0 SaveToFile IndexToShortURL (fun _ _ => none) ⟨shortenPath, [120]⟩
        (Except.error "open savedURLs.csv: no such file or directory")).store
        = Except.error "open savedURLs.csv: no such file or directory" := by
  have h := ShortenHandler_save_error 0 SaveToFile IndexToShortURL (fun _ _ => none)
    ⟨shortenPath, [120]⟩ (Except.error "open savedURLs.csv: no such file or directory")
    (base62Code (scramble 0)) rfl (by decide) (by decide) (by simp [SaveToFile])
    (IndexToShortURL_of_lt 0 (by decide))
  refine ⟨by simp [SaveToFile], h.1, h.2, ?_⟩
  simp [ShortenHandler, SaveToFile, IndexToShortURL_of_lt 0 (by decide), shortenPath,
    MAX_URLS_eq]

theorem hexEscapeNonASCII_ascii (s : GoString) (h : ∀ b ∈ s, b < 128) :
    hexEscapeNonASCII s = s := by
  induction s with
  | nil => rfl
  | cons b s ih =>
    have hb : ¬ b ≥ 128 := Nat.not_le_of_lt (h b (List.mem_cons_self _ _))
    rw [hexEscapeNonASCII, if_neg hb, ih (fun c hc => h c (List.mem_cons_of_mem _ hc))]

theorem httpRedirectLocation_unchanged (parsed : URLParse) (oldpath url : GoString)
    (hp : parsed ≠ URLParse.relative) (h : ∀ b ∈ url, b < 128) :
    httpRedirectLocation parsed oldpath url = url := by
  cases parsed with
  | relative => exact absurd rfl hp
  | failed => exact hexEscapeNonASCII_ascii url h
  | absolute => exact hexEscapeNonASCII_ascii url h

/-- C8, the claim refuted: the store holds the record 0 with the URL "x", the counter
is 1 and the path is "/CjINSn", the code of 0. The handler answers 302 through
`http.Redirect` with "x", a URL in which `url.Parse` finds no scheme and no host, and
the Location header is "/x", not "x". With the URL "http://a/é" (scheme and host
present) the header is "http://a/%c3%a9". -/
theorem RedirectHandler_location_differs :
    RedirectHandler 1 ShortURLToIndex
        (ReadFromFile (Except.ok [CsvRead.record [[48], [120]]]))
        ⟨47 :: [67, 106, 73, 78, 83, 110], []⟩ =
      ⟨[Event.shortURLToIndex [67, 106, 73, 78, 83, 110], Event.readFromFile 0,
        Event.Redirect [120] 302], none⟩ ∧
    locationHeader (fun _ => URLParse.relative) ⟨47 :: [67, 106, 73, 78, 83, 110], []⟩
        [Event.shortURLToIndex [67, 106, 73, 78, 83, 110], Event.readFromFile 0,
          Event.Redirect [120] 302] = some [47, 120] ∧
    ([47, 120] : GoString) ≠ [120] ∧
    locationHeader (fun _ => URLParse.absolute) ⟨47 :: [67, 106, 73, 78, 83, 110], []⟩
        [Event.shortURLToIndex [67, 106, 73, 78, 83, 110], Event.readFromFile 0,
          Event.Redirect [104, 116, 116, 112, 58, 47, 47, 97, 47, 195, 169] 302] =
      some [104, 116, 116, 112, 58, 47, 47, 97, 47, 37, 99, 51, 37, 97, 57] := by
  decide

/-- C8 as amended: for a request whose path is "/" followed by `s`, `RedirectHandler`
answers 404 without calling the decoder when `s` is not exactly six characters from
0-9a-zA-Z; otherwise, with `index` the decoder's result for `s` (the program's own
decoder returns one for every such `s`), it answers 404 without reading the store
when `index` is not below the counter, answers 500 when the store read returns an
error, and otherwise answers 302 by calling `http.Redirect` with the URL the store
returned: the Location header is the value net/http derives from that URL, and it is
the URL itself when `url.Parse` does not classify it as lacking both scheme and host
and all its bytes are ASCII. When the decoder or the store read does not return
(`log.Fatal`, panic), the handler writes no answer. -/
theorem RedirectHandler_outcomes (totalIndex : Nat)
    (shortURLToIndex : GoString → Except Abort Nat)
    (readFromFile : Nat → Except Abort (GoString × Option GoError))
    (urlParse : GoString → URLParse) (s body : GoString) :
    (¬ (s.length = 6 ∧ ∀ ch ∈ s, isAlnum ch = true) →
      RedirectHandler totalIndex shortURLToIndex readFromFile ⟨47 :: s, body⟩ =
        ⟨[Event.NotFound], none⟩ ∧
      statusCode [Event.NotFound] = some 404) ∧
    (s.length = 6 → (∀ ch ∈ s, isAlnum ch = true) →
      (∃ index, ShortURLToIndex s = Except.ok index) ∧
      (∀ e, shortURLToIndex s = Except.error e →
        RedirectHandler totalIndex shortURLToIndex readFromFile ⟨47 :: s, body⟩ =
          ⟨[Event.shortURLToIndex s], some e⟩ ∧
        statusCode [Event.shortURLToIndex s] = none) ∧
      ∀ index, shortURLToIndex s = Except.ok index →
        (totalIndex ≤ index →
          RedirectHandler totalIndex shortURLToIndex readFromFile ⟨47 :: s, body⟩ =
            ⟨[Event.shortURLToIndex s, Event.NotFound], none⟩ ∧
          statusCode [Event.shortURLToIndex s, Event.NotFound] = some 404) ∧
        (index < totalIndex → ∀ e, readFromFile index = Except.error e →
          RedirectHandler totalIndex shortURLToIndex readFromFile ⟨47 :: s, body⟩ =
            ⟨[Event.shortURLToIndex s, Event.readFromFile index], some e⟩ ∧
          statusCode [Event.shortURLToIndex s, Event.readFromFile index] = none) ∧
        (index < totalIndex → ∀ url msg, readFromFile index = Except.ok (url, some msg) →
          RedirectHandler totalIndex shortURLToIndex readFromFile ⟨47 :: s, body⟩ =
            ⟨[Event.shortURLToIndex s, Event.readFromFile index, Event.Error msg 500], none⟩ ∧
          statusCode [Event.shortURLToIndex s, Event.readFromFile index, Event.Error msg 500]
            = some 500) ∧
        (index < totalIndex → ∀ url, readFromFile index = Except.ok (url, none) →
          RedirectHandler totalIndex shortURLToIndex readFromFile ⟨47 :: s, body⟩ =
            ⟨[Event.shortURLToIndex s, Event.readFromFile index, Event.Redirect url 302],
              none⟩ ∧
          statusCode [Event.shortURLToIndex s, Event.readFromFile index,
            Event.Redirect url 302] = some 302 ∧
          locationHeader urlParse ⟨47 :: s, body⟩ [Event.shortURLToIndex s,
            Event.readFromFile index, Event.Redirect url 302] =
              some (httpRedirectLocation (urlParse url) (47 :: s) url) ∧
          (urlParse url ≠ URLParse.relative → (∀ b ∈ url, b < 128) →
            locationHeader urlParse ⟨47 :: s, body⟩ [Event.shortURLToIndex s,
              Event.readFromFile index, Event.Redirect url 302] = some url))) := by
  constructor
  · intro h
    have hv : validShortURL s = false := by
      rw [← validShortURL_iff] at h
      simpa using h
    simp [RedirectHandler, hv, statusCode]
  · intro hl ha
    have hv : validShortURL s = true := (validShortURL_iff s).2 ⟨hl, ha⟩
    refine ⟨?_, ?_, ?_⟩
    · obtain ⟨i, _, hi, _⟩ := encode_decode s hv
      exact ⟨i, hi⟩
    · intro e hdec
      simp [RedirectHandler, hv, hdec, statusCode]
    · intro index hdec
      refine ⟨?_, ?_, ?_, ?_⟩
      · intro hge
        have hge' : index ≥ totalIndex := hge
        simp [RedirectHandler, hv, hdec, hge', statusCode]
      · intro hlt e hrd
        have hlt' : ¬ index ≥ totalIndex := Nat.not_le_of_lt hlt
        simp [RedirectHandler, hv, hdec, hlt', hrd, statusCode]
      · intro hlt url msg hrd
        have hlt' : ¬ index ≥ totalIndex := Nat.not_le_of_lt hlt
        simp [RedirectHandler, hv, hdec, hlt', hrd, statusCode]
      · intro hlt url hrd
        have hlt' : ¬ index ≥ totalIndex := Nat.not_le_of_lt hlt
        refine ⟨?_, ?_, ?_, ?_⟩
        · simp [RedirectHandler, hv, hdec, hlt', hrd]
        · simp [statusCode]
        · simp [locationHeader]
        · intro hp hascii
          simp [locationHeader, httpRedirectLocation_unchanged _ _ _ hp hascii]

theorem RedirectHandler_outcomes_witness :
    RedirectHandler 1 ShortURLToIndex
        (ReadFromFile (Except.ok [CsvRead.record [[48], [104, 116, 116, 112, 58, 47, 47, 97]]]))
        ⟨47 :: [97, 98, 99, 100, 101], []⟩ = ⟨[Event.NotFound], none⟩ ∧
    RedirectHandler 1 ShortURLToIndex
        (ReadFromFile (Except.ok [CsvRead.record [[48], [104, 116, 116, 112, 58, 47, 47, 97]]]))
        ⟨47 :: [67, 106, 73, 78, 83, 110], []⟩ =
      ⟨[Event.shortURLToIndex [67, 106, 73, 78, 83, 110], Event.readFromFile 0,
        Event.Redirect [104, 116, 116, 112, 58, 47, 47, 97] 302], none⟩ ∧
    locationHeader (fun _ => URLParse.absolute) ⟨47 :: [67, 106, 73, 78, 83, 110], []⟩
        [Event.shortURLToIndex [67, 106, 73, 78, 83, 110], Event.readFromFile 0,
          Event.Redirect [104, 116, 116, 112, 58, 47, 47, 97] 302] =
      some [104, 116, 116, 112, 58, 47, 47, 97] :=
  ⟨((RedirectHandler_outcomes 1 ShortURLToIndex
      (ReadFromFile (Except.ok [CsvRead.record [[48], [104, 116, 116, 112, 58, 47, 47, 97]]]))
      (fun _ => URLParse.absolute) [97, 98, 99, 100, 101] []).1 (by decide)).1,
    ((((RedirectHandler_outcomes 1 ShortURLToIndex
      (ReadFromFile (Except.ok [CsvRead.record [[48], [104, 116, 116, 112, 58, 47, 47, 97]]]))
      (fun _ => URLParse.absolute) [67, 106, 73, 78, 83, 110] []).2
      rfl (by decide)).2.2 0 (by decide)).2.2.2 (by decide)
      [104, 116, 116, 112, 58, 47, 47, 97] (by decide)).1,
    ((((RedirectHandler_outcomes 1 ShortURLToIndex
      (ReadFromFile (Except.ok [CsvRead.record [[48], [104, 116, 116, 112, 58, 47, 47, 97]]]))
      (fun _ => URLParse.absolute) [67, 106, 73, 78, 83, 110] []).2
      rfl (by decide)).2.2 0 (by decide)).2.2.2 (by decide)
      [104, 116, 116, 112, 58, 47, 47, 97] (by decide)).2.2.2 (by decide) (by decide)⟩

/-! ## The record file -/

theorem mainLoop_failed (lines : List CsvRead) (init : List GoString)
    (h : ∃ e, CsvRead.failed e ∈ lines) : mainLoop lines init = Except.error Abort.fatal := by
  induction lines generalizing init with
  | nil => simp at h
  | cons l rest ih =>
    cases l with
    | failed e => rfl
    | record nr =>
      obtain ⟨e, he⟩ := h
      simp only [List.mem_cons, reduceCtorEq, false_or] at he
      exact ih _ ⟨e, he⟩

theorem mainLoop_records (lines : List CsvRead) (init : List GoString)
    (h : ∀ e, CsvRead.failed e ∉ lines) :
    mainLoop lines init = Except.ok
      (match lines.getLast? with
        | some (CsvRead.record nr) => nr
        | _ => init) := by
  induction lines generalizing init with
  | nil => rfl
  | cons l rest ih =>
    cases l with
    | failed e => exact absurd (List.mem_cons_self _ _) (h e)
    | record nr =>
      have h' : ∀ e, CsvRead.failed e ∉ rest :=
        fun e he => h e (List.mem_cons_of_mem _ he)
      rw [mainLoop, ih _ h']
      cases rest with
      | nil => rfl
      | cons l2 rest2 =>
        rw [List.getLast?_cons_cons]
        cases hlast : (l2 :: rest2).getLast? with
        | none => simp at hlast
        | some x =>
          cases x with
          | failed e => exact absurd (List.mem_of_getLast?_eq_some hlast) (h' e)
          | record nr2 => rfl

/-- C7, the claim refuted: a file whose only record is labelled 5 (and not 0) is read
without a fatal error, and `TotalIndex` is set to 6. -/
theorem main_accepts_gap :
    ParseUint [53] ≠ some 0 ∧
      main (Except.ok [CsvRead.record [[53], [120]]]) = Except.ok 6 := by
  decide

/-- C7 as amended: startup looks at the label of the last record only. On a file that
opens it fails fatally exactly when a read returns an error other than end of file or
the last record's label is non-empty and not a decimal 64-bit unsigned integer; when
every read succeeds and the last label is the decimal integer `L`, it sets `TotalIndex`
to `L + 1` (modulo 2^64), whatever the labels of the records before it; an empty file
gives 0; a file that cannot be opened is fatal. -/
theorem main_checks_last_label_only (lines : List CsvRead) :
    (main (Except.ok lines) = Except.error Abort.fatal ↔
      (∃ e, CsvRead.failed e ∈ lines) ∨
        ∃ label rest, lines.getLast? = some (CsvRead.record (label :: rest)) ∧ label ≠ [] ∧
          ParseUint label = none) ∧
    (∀ label rest L, (∀ e, CsvRead.failed e ∉ lines) →
      lines.getLast? = some (CsvRead.record (label :: rest)) → ParseUint label = some L →
      main (Except.ok lines) = Except.ok ((L + 1) % 2 ^ 64)) ∧
    (lines = [] → main (Except.ok lines) = Except.ok 0) ∧
    (∀ err, main (Except.error err) = Except.error Abort.fatal) := by
  refine ⟨?_, ?_, ?_, fun _ => rfl⟩
  · by_cases hf : ∃ e, CsvRead.failed e ∈ lines
    · simp only [main, mainLoop_failed lines _ hf, hf, true_or]
    · have hf' : ∀ e, CsvRead.failed e ∉ lines := fun e he => hf ⟨e, he⟩
      simp only [main, mainLoop_records lines _ hf', hf, false_or]
      cases hlast : lines.getLast? with
      | none => simp
      | some l =>
        cases l with
        | failed e => exact absurd (List.mem_of_getLast?_eq_some hlast) (hf' e)
        | record nr =>
          cases nr with
          | nil => simp
          | cons label rest =>
            by_cases hl : label = []
            · simp [hl]
            · cases hp : ParseUint label <;> simp [hl, hp]
  · intro label rest L hf hlast hp
    have hl : label ≠ [] := by
      intro h0
      rw [h0] at hp
      simp [ParseUint] at hp
    simp [main, mainLoop_records lines _ hf, hlast, hl, hp, u64]
  · intro h
    subst h
    rfl

theorem main_checks_last_label_only_witness :
    main (Except.ok [CsvRead.record [[48], [120]], CsvRead.record [[55], [121]]])
      = Except.ok 8 :=
  (main_checks_last_label_only [CsvRead.record [[48], [120]], CsvRead.record [[55], [121]]]).2.1
    [55] [[121]] 7 (by simp) rfl (by decide)

theorem ReadFromFile_at (lines : List CsvRead) (i : Nat) :
    ReadFromFile (Except.ok lines) i =
      match lines[i]? with
      | none => Except.ok ([], some "EOF")
      | some (CsvRead.failed err) => Except.ok ([], some err)
      | some (CsvRead.record record) =>
        match record[0]? with
        | none => Except.error Abort.panic
        | some label =>
          match ParseUint label with
          | none => Except.error Abort.fatal
          | some retrievedIndex =>
            if retrievedIndex ≠ i then Except.ok ([], some "read error")
            else
              match record[1]? with
              | none => Except.error Abort.panic
              | some url => Except.ok (url, none) := by
  unfold ReadFromFile
  simp only [List.head?_drop]

/-- A record of one field whose label is the requested index: `record[1]` on line 48
is out of range and `ReadFromFile` panics. -/
theorem ReadFromFile_one_field (lines : List CsvRead) (i : Nat) (label : GoString)
    (h : lines[i]? = some (CsvRead.record [label])) (hp : ParseUint label = some i) :
    ReadFromFile (Except.ok lines) i = Except.error Abort.panic := by
  rw [ReadFromFile_at, h]
  simp [hp]

/-- C6, the claim refuted: the record at position 0 has the label "abc", which differs
from 0, and `ReadFromFile 0` does not return an error: it stops in `log.Fatal`. -/
theorem ReadFromFile_unparsable_label :
    ParseUint [97, 98, 99] ≠ some 0 ∧
      ReadFromFile (Except.ok [CsvRead.record [[97, 98, 99], [120]]]) 0
        = Except.error Abort.fatal ∧
      ¬ ∃ msg, ReadFromFile (Except.ok [CsvRead.record [[97, 98, 99], [120]]]) 0
        = Except.ok ([], some msg) := by
  refine ⟨by decide, by decide, ?_⟩
  rintro ⟨msg, h⟩
  have h2 : ReadFromFile (Except.ok [CsvRead.record [[97, 98, 99], [120]]]) 0
      = Except.error Abort.fatal := by decide
  rw [h2] at h
  cases h

/-- C6 as amended: `ReadFromFile i` returns a URL with a nil error exactly when the
entry at position `i` exists, has a URL field after its label, and its label is the
decimal 64-bit unsigned integer `i`, and the URL is then that entry's URL field; when
the entry is missing, unreadable, or labelled with a decimal integer other than `i`,
it returns an error and the empty string; when the label is not a decimal 64-bit
unsigned integer it stops in `log.Fatal` and returns nothing. -/
theorem ReadFromFile_label_checked (lines : List CsvRead) (i : Nat) :
    (∀ url, ReadFromFile (Except.ok lines) i = Except.ok (url, none) ↔
      ∃ label rest, lines[i]? = some (CsvRead.record (label :: url :: rest)) ∧
        ParseUint label = some i) ∧
    (lines[i]? = none → ∃ msg, ReadFromFile (Except.ok lines) i = Except.ok ([], some msg)) ∧
    (∀ err, lines[i]? = some (CsvRead.failed err) →
      ReadFromFile (Except.ok lines) i = Except.ok ([], some err)) ∧
    (∀ label rest n, lines[i]? = some (CsvRead.record (label :: rest)) →
      ParseUint label = some n → n ≠ i →
      ∃ msg, ReadFromFile (Except.ok lines) i = Except.ok ([], some msg)) ∧
    (∀ label rest, lines[i]? = some (CsvRead.record (label :: rest)) →
      ParseUint label = none → ReadFromFile (Except.ok lines) i = Except.error Abort.fatal) := by
  rw [ReadFromFile_at]
  refine ⟨?_, ?_, ?_, ?_, ?_⟩
  · intro url
    cases hl : lines[i]? with
    | none => simp
    | some l =>
      cases l with
      | failed err => simp
      | record nr =>
        cases nr with
        | nil => simp
        | cons label tl =>
          simp only [List.getElem?_cons_zero]
          constructor
          · intro h
            cases hp : ParseUint label with
            | none => rw [hp] at h; cases h
            | some n =>
              rw [hp] at h
              by_cases hn : n = i
              · simp only [hn, ne_eq, not_true_eq_false, if_false] at h
                cases tl with
                | nil => simp at h
                | cons u rest =>
                  simp only [List.getElem?_cons_succ, List.getElem?_cons_zero] at h
                  have hu : u = url := congrArg Prod.fst (Except.ok.inj h)
                  exact ⟨label, rest, by rw [hu], by rw [hp, hn]⟩
              · simp [hn] at h
          · rintro ⟨label2, rest, h1, h2⟩
            have h3 := List.cons.inj (CsvRead.record.inj (Option.some.inj h1))
            rw [h3.1, h2, h3.2]
            simp
  · intro h
    exact ⟨"EOF", by rw [h]⟩
  · intro err h
    rw [h]
  · intro label rest n h hp hn
    exact ⟨"read error", by rw [h]; simp [hp, hn]⟩
  · intro label rest h hp
    rw [h]
    simp [hp]

theorem ReadFromFile_label_checked_witness :
    ReadFromFile (Except.ok [CsvRead.record [[48], [120]], CsvRead.record [[55], [121]]]) 0
        = Except.ok ([120], none) ∧
    (∃ msg, ReadFromFile (Except.ok [CsvRead.record [[48], [120]], CsvRead.record [[55], [121]]]) 1
        = Except.ok ([], some msg)) ∧
    (∃ msg, ReadFromFile (Except.ok [CsvRead.record [[48], [120]], CsvRead.record [[55], [121]]]) 2
        = Except.ok ([], some msg)) :=
  ⟨((ReadFromFile_label_checked [CsvRead.record [[48], [120]], CsvRead.record [[55], [121]]] 0).1
      [120]).2 ⟨[48], [], rfl, by decide⟩,
    (ReadFromFile_label_checked [CsvRead.record [[48], [120]], CsvRead.record [[55], [121]]] 1).2.2.2.1
      [55] [[121]] 7 rfl (by decide) (by decide),
    (ReadFromFile_label_checked [CsvRead.record [[48], [120]], CsvRead.record [[55], [121]]] 2).2.1
      rfl⟩

/-! ## Allocation -/

theorem ShortenHandler_saved (execute : GoString → GoString → Option GoError) (n : Nat)
    (u : GoString) (lines : List CsvRead) (hu : u ≠ []) (hn : n < MAX_URLS) :
    ShortenHandler n SaveToFile IndexToShortURL execute ⟨shortenPath, u⟩ (Except.ok lines) =
      ⟨shortenReply execute n u, n + 1,
        Except.ok (lines ++ [CsvRead.record [FormatUint n, u]])⟩ := by
  have hn' : ¬ n ≥ MAX_URLS := Nat.not_le_of_lt hn
  have h1 : u64 (n + 1) = n + 1 :=
    u64_of_lt (by rw [MAX_URLS_eq] at hn; norm_num; omega)
  unfold ShortenHandler shortenReply
  simp only [hu, hn', SaveToFile, IndexToShortURL_of_lt n hn, h1, ne_eq, not_true_eq_false,
    if_false, List.cons_append, List.nil_append]
  split_ifs <;> rfl

theorem shortenAll_from (execute : GoString → GoString → Option GoError) (us : List GoString) :
    ∀ (n : Nat) (lines : List CsvRead), (∀ u ∈ us, u ≠ []) → n + us.length ≤ MAX_URLS →
      shortenAll execute (us.map (fun u => ⟨shortenPath, u⟩)) n (Except.ok lines) =
        ((us.enumFrom n).map (fun p => shortenReply execute p.1 p.2), n + us.length,
          Except.ok (lines ++ (us.enumFrom n).map (fun p => CsvRead.record [FormatUint p.1, p.2]))) := by
  induction us with
  | nil => intro n lines _ _; simp [shortenAll]
  | cons u us ih =>
    intro n lines hne hlen
    have hu : u ≠ [] := hne u (List.mem_cons_self _ _)
    have hne' : ∀ v ∈ us, v ≠ [] := fun v hv => hne v (List.mem_cons_of_mem _ hv)
    simp only [List.length_cons] at hlen
    have hn : n < MAX_URLS := by omega
    simp only [List.map_cons, shortenAll, ShortenHandler_saved execute n u lines hu hn]
    rw [ih (n + 1) _ hne' (by omega)]
    simp only [List.enumFrom_cons, List.map_cons, List.length_cons, List.append_assoc,
      List.singleton_append]
    refine Prod.ext rfl (Prod.ext ?_ rfl)
    simp only []
    omega

/-- C5: starting from counter 0 and an empty file, successive `ShortenHandler` calls
with path "/shorten/" and non-empty URLs `us` (at most 62^6 of them): the k-th call
saves the record `(k, u_k)` and shows the code of `k`, which is `IndexToShortURL k`;
afterwards the counter is the number of calls and the file holds exactly the records
labelled 0, 1, ... in order, each with its URL. -/
theorem shortenAll_monotonic (execute : GoString → GoString → Option GoError)
    (us : List GoString) (hne : ∀ u ∈ us, u ≠ []) (hN : us.length ≤ 62 ^ 6) :
    shortenAll execute (us.map (fun u => ⟨shortenPath, u⟩)) 0 (Except.ok []) =
        (us.enum.map (fun p => shortenReply execute p.1 p.2), us.length,
          Except.ok (us.enum.map (fun p => CsvRead.record [FormatUint p.1, p.2]))) ∧
      ∀ k, k < us.length → IndexToShortURL k = Except.ok (base62Code (scramble k)) := by
  have hD : MAX_URLS = 62 ^ 6 := by rw [MAX_URLS_eq]; norm_num
  rw [← hD] at hN
  constructor
  · have h := shortenAll_from execute us 0 [] hne (by omega)
    rw [h]
    simp only [List.enum, Nat.zero_add, List.nil_append]
  · intro k hk
    exact IndexToShortURL_of_lt k (by omega)

theorem shortenAll_monotonic_witness :
    (∀ u ∈ ([[120], [121, 122]] : List GoString), u ≠ []) ∧
    ([[120], [121, 122]] : List GoString).length ≤ 62 ^ 6 ∧
    shortenAll (fun _ _ => none)
        (([[120], [121, 122]] : List GoString).map (fun u => ⟨shortenPath, u⟩)) 0
        (Except.ok []) =
      ([shortenReply (fun _ _ => none) 0 [120], shortenReply (fun _ _ => none) 1 [121, 122]],
        2, Except.ok [CsvRead.record [[48], [120]], CsvRead.record [[49], [121, 122]]]) :=
  ⟨by decide, by decide,
    (shortenAll_monotonic (fun _ _ => none) [[120], [121, 122]] (by decide) (by decide)).1⟩

end URLShortener
